import Mathlib

/-!
Verification development for the ame-audio playback engine
(crates/ame-audio: engine.rs, decoder.rs, output.rs, source.rs, error.rs).

The Rust code is shallowly embedded as executable Lean definitions:

* the SPSC ring buffer (ringbuf HeapRb) becomes a fixed-capacity FIFO
  queue over lists; `push_slice` appends as many samples as fit and
  returns the count, `pop_slice` removes up to the requested count;
* the decoder thread body `Decoder::decode_loop` becomes a pure function
  over an abstract probe result and packet stream (the symphonia and
  rubato libraries are external: probing, codec construction and the
  resampler are parameters, everything that is written in decoder.rs is
  modelled line by line);
* the engine (`AudioEngine`) becomes a state-transition function; the
  fallible external calls it makes (opening the file, building the cpal
  output stream, starting it) are supplied through an environment of
  `Except` results so that every failure path of the Rust code is a
  reachable branch of the model;
* samples carry an arbitrary type where the code only moves them, and
  the rational numbers where the code multiplies by the volume scalar
  (f32 arithmetic idealised as exact arithmetic; the volume values of
  interest are exactly 0 and 1);
* the effect of pushing into the ring buffer from the decode loop is
  recorded as an ordered outflow list, which theorem C6 justifies: the
  push loop delivers every sample, in order, unmodified.
-/

set_option linter.unusedVariables false

namespace Ame

/-- Error enumeration of the crate, from error.rs. The payloads of the
cpal and io wrappers are reduced to their display strings. -/
inductive AudioError where
  | CpalBuild (msg : String)
  | CpalPlay (msg : String)
  | CpalPause (msg : String)
  | CpalConfig (msg : String)
  | DeviceNotAvailable
  | Decode (msg : String)
  | IoErr (msg : String)
  | UnsupportedFormat
deriving DecidableEq, Repr

/-- Single-producer single-consumer ring buffer (ringbuf HeapRb) viewed
as a fixed-capacity FIFO queue; `data` lists the buffered samples oldest
first and never exceeds `cap`. -/
structure RB (α : Type) where
  cap : Nat
  data : List α
deriving DecidableEq, Repr

/-- Producer half: append as many samples from the slice as fit in the
vacant space; return the new buffer and the count appended. -/
def RB.push_slice {α : Type} (rb : RB α) (samples : List α) : RB α × Nat :=
  let free := rb.cap - rb.data.length
  let k := min free samples.length
  (⟨rb.cap, rb.data ++ samples.take k⟩, k)

/-- Consumer half: remove up to `n` samples from the front; return the
new buffer and the removed samples. -/
def RB.pop_slice {α : Type} (rb : RB α) (n : Nat) : RB α × List α :=
  (⟨rb.cap, rb.data.drop n⟩, rb.data.take n)

/-- Body of `push_samples` in decoder.rs: repeatedly `push_slice` the
remaining samples; when nothing could be pushed (buffer full) sleep
briefly and retry. The concurrent consumer is modelled by `pops`, the
number of samples it frees at each sleep point; `fuel` bounds the number
of iterations so the function is total, `none` meaning the loop was
still running when the fuel ran out (the consumer never freed space).
`inflow` accumulates, in order, every sample that entered the buffer. -/
def push_samples_go {α : Type} :
    Nat → List Nat → RB α → List α → List α → Option (RB α × List α)
  | 0, _, _, _, _ => none
  | fuel + 1, pops, rb, rest, inflow =>
    if rest.isEmpty then some (rb, inflow)
    else
      let pr := rb.push_slice rest
      if pr.2 = 0 then
        match pops with
        | [] => none
        | p :: ps => push_samples_go fuel ps ⟨rb.cap, rb.data.drop p⟩ rest inflow
      else
        push_samples_go fuel pops pr.1 (rest.drop pr.2) (inflow ++ rest.take pr.2)

/-- The function `push_samples` of decoder.rs, run against a consumer
schedule. On termination it returns the final buffer and the ordered
list of samples that were pushed. -/
def push_samples {α : Type} (fuel : Nat) (pops : List Nat) (rb : RB α)
    (samples : List α) : Option (RB α × List α) :=
  push_samples_go fuel pops rb samples []

/-- Result of `format.next_packet()` followed by `decoder.decode(&packet)`
for one packet of the stream. `frames` is the frame count of the decoded
audio buffer and `samples` its interleaved samples; `decodeOk = false`
models a packet that fails to decode, which the loop silently skips
(`if let Ok(audio_buf) = decoder.decode(&packet)` with no else branch).
The end of the list models the UnexpectedEof read error, which breaks
the loop successfully; `err` models any other read error, which aborts
the loop with a Decode error. -/
inductive PacketResult (α : Type) where
  | ok (frames : Nat) (samples : List α) (decodeOk : Bool)
  | err (msg : String)
deriving DecidableEq, Repr

/-- Codec parameters of a track, from symphonia CodecParameters: only
the two fields decoder.rs reads, each optional in the library. -/
structure CodecParams where
  sample_rate : Option Nat
  channels : Option Nat
deriving DecidableEq, Repr

/-- A container track: its id and codec parameters. -/
structure Track where
  id : Nat
  codec_params : CodecParams
deriving DecidableEq, Repr

/-- Abstract view of a probed symphonia FormatReader: the default track
(if any), whether `format.seek` succeeds, the packet stream read from
the natural start, and the packet stream read after a successful seek. -/
structure Format (α : Type) where
  default_track : Option Track
  seekOk : Bool
  packets : List (PacketResult α)
  packetsAfterSeek : List (PacketResult α)
deriving DecidableEq, Repr

/-- Mutable state of the packet loop of `Decoder::decode_loop`: the
staging buffer `in_buf`, the running decoded frame counter
`total_samples_decoded`, the ordered list of values stored into the
shared position tracker, the ordered outflow of samples pushed into the
ring buffer, and the resampler state (abstract, of type ρ). -/
structure LoopState (α ρ : Type) where
  in_buf : List α
  total_samples_decoded : Nat
  writes : List Nat
  outflow : List α
  rs : ρ
deriving DecidableEq, Repr

/-- One pass of the packet loop of `Decoder::decode_loop`, folded over
the packet stream. `start_ms` is `start_position` in milliseconds,
`hasTracker` whether a position tracker was supplied, `needResample`
the test `src_rate != output_sample_rate`, and `procRes` the net effect
of one `process_resampling` call on the rubato resampler state and the
staging buffer: it returns the new state, the samples pushed and the
staging samples kept. -/
def decodeLoopGo {α ρ : Type} (src_rate : Nat) (start_ms : Option Nat)
    (hasTracker : Bool) (needResample : Bool)
    (procRes : ρ → List α → ρ × List α × List α) :
    List (PacketResult α) → LoopState α ρ →
      Except AudioError Unit × LoopState α ρ
  | [], st => (.ok (), st)
  | .err m :: _, st => (.error (.Decode m), st)
  | .ok frames samples decodeOk :: rest, st =>
    if decodeOk then
      let in2 := st.in_buf ++ samples
      let total2 := st.total_samples_decoded + frames
      let writes2 :=
        if hasTracker then
          st.writes ++ [start_ms.getD 0 + total2 * 1000 / src_rate]
        else st.writes
      if needResample then
        let pr := procRes st.rs in2
        decodeLoopGo src_rate start_ms hasTracker needResample procRes rest
          ⟨pr.2.2, total2, writes2, st.outflow ++ pr.2.1, pr.1⟩
      else
        decodeLoopGo src_rate start_ms hasTracker needResample procRes rest
          ⟨[], total2, writes2, st.outflow ++ in2, st.rs⟩
    else
      decodeLoopGo src_rate start_ms hasTracker needResample procRes rest st

/-- The decoder thread body `Decoder::decode_loop`. `probeResult` is
the outcome of `get_probe().format(..)` (its error is wrapped into
`AudioError.Decode`); `makeDecoder` the outcome of
`get_codecs().make(codec_params, ..)`. A missing default track, source
sample rate or channel count aborts with `UnsupportedFormat`. If a
start position greater than zero was given, the reader seek selects the
after-seek packet stream on success and, on failure, the loop continues
with the natural-start stream (warn and continue). Returns the thread
result together with the position-tracker writes and the ring-buffer
outflow, both empty when the function aborts before the loop. -/
def decode_loop {α ρ : Type} (probeResult : Except String (Format α))
    (makeDecoder : CodecParams → Except String Unit)
    (output_sample_rate : Nat) (start_ms : Option Nat) (hasTracker : Bool)
    (rsInit : ρ) (procRes : ρ → List α → ρ × List α × List α) :
    Except AudioError Unit × List Nat × List α :=
  match probeResult with
  | .error e => (.error (.Decode e), [], [])
  | .ok format =>
    match format.default_track with
    | none => (.error .UnsupportedFormat, [], [])
    | some track =>
      match makeDecoder track.codec_params with
      | .error e => (.error (.Decode e), [], [])
      | .ok _ =>
        match track.codec_params.sample_rate with
        | none => (.error .UnsupportedFormat, [], [])
        | some src_rate =>
          match track.codec_params.channels with
          | none => (.error .UnsupportedFormat, [], [])
          | some _channels =>
            let packets :=
              match start_ms with
              | some pos =>
                if 0 < pos then
                  if format.seekOk then format.packetsAfterSeek
                  else format.packets
                else format.packets
              | none => format.packets
            let needResample := src_rate != output_sample_rate
            let r := decodeLoopGo src_rate start_ms hasTracker needResample
              procRes packets ⟨[], 0, [], [], rsInit⟩
            (r.1, r.2.writes, r.2.outflow)

/-- The output stream of output.rs: the stored volume scalar (an
atomic f32, idealised as a rational) and whether the underlying cpal
stream is currently started. -/
structure OutputStream where
  volume : ℚ
  playing : Bool
deriving DecidableEq, Repr

/-- Constructor `OutputStream::new` (the fallible parts, device and
stream building, are injected by the engine environment): the volume
atomic is initialised to the bits of 1.0 and the cpal stream is built
but not yet started. -/
def OutputStream.new : OutputStream :=
  { volume := 1, playing := false }

/-- Method `OutputStream::play`: start the hardware stream. -/
def OutputStream.play (o : OutputStream) : OutputStream :=
  { o with playing := true }

/-- Method `OutputStream::pause`: stop the hardware stream. -/
def OutputStream.pause (o : OutputStream) : OutputStream :=
  { o with playing := false }

/-- Method `OutputStream::set_volume`: clamp to [0, 1] and store. -/
def OutputStream.set_volume (o : OutputStream) (v : ℚ) : OutputStream :=
  { o with volume := max 0 (min v 1) }

/-- One invocation of the hardware callback built by `build_stream` in
output.rs, for a device buffer of `n` samples: read the volume, fill a
zeroed f32 staging buffer by popping from the ring buffer (any
shortfall stays zero), then convert every staged sample scaled by the
volume into the device representation through `conv`, which stands for
`T::from_sample` of the negotiated sample format (f32, i16 or u16).
Returns the written device buffer and the drained ring buffer. -/
def audio_callback {β : Type} (conv : ℚ → β) (vol : ℚ) (rb : RB ℚ)
    (n : Nat) : List β × RB ℚ :=
  let pr := rb.pop_slice n
  let f32_buf := pr.2 ++ List.replicate (n - pr.2.length) 0
  (f32_buf.map (fun s => conv (s * vol)), pr.1)

/-- Handle to a spawned decoder thread, recording how the engine
spawned it: the start position in milliseconds (`none` for
`Decoder::spawn`, used by `play_file`) and whether a shared position
tracker was handed over (`Decoder::spawn_at` with `Some(tracker)`,
used by `seek_to`). -/
structure DecoderHandle where
  start_ms : Option Nat
  hasTracker : Bool
deriving DecidableEq, Repr

/-- A `FileSource` as the engine retains it: the path it can be
reopened from (source.rs). -/
structure FileSource where
  path : String
deriving DecidableEq, Repr

/-- Outcomes of the external fallible calls a single engine operation
makes: `FileSource::new` (also used by `reopen`), `OutputStream::new`,
and `stream.play()`. -/
structure Env where
  openResult : Except AudioError Unit
  outputNewResult : Except AudioError Unit
  playResult : Except AudioError Unit

/-- The engine state of engine.rs. `position_tracker` is the value of
the shared AtomicU64 in milliseconds. `bufId` and `bufCap` identify the
ring buffer allocated for the live session (each `HeapRb::new` takes a
fresh id from `nextBufId`); they are bookkeeping for buffer freshness,
not extra engine data. -/
structure AudioEngine where
  sample_rate : Nat
  channels : Nat
  output : Option OutputStream
  decoder_handle : Option DecoderHandle
  current_file : Option FileSource
  position_tracker : Nat
  bufId : Option Nat
  bufCap : Option Nat
  nextBufId : Nat
deriving DecidableEq, Repr

/-- Method `AudioEngine::stop`: drop the output stream, the decoder
handle and the retained file, and reset the position tracker to 0.
Dropping both halves releases the session ring buffer. -/
def AudioEngine.stop (e : AudioEngine) : AudioEngine :=
  { e with output := none, decoder_handle := none, current_file := none,
           position_tracker := 0, bufId := none, bufCap := none }

/-- Method `AudioEngine::current_position` (milliseconds). -/
def AudioEngine.current_position (e : AudioEngine) : Nat :=
  e.position_tracker

/-- Method `AudioEngine::pause`: forward to the output stream when one
exists (the cpal error is discarded). -/
def AudioEngine.pause (e : AudioEngine) : AudioEngine :=
  match e.output with
  | none => e
  | some o => { e with output := some o.pause }

/-- Method `AudioEngine::resume`: forward to the output stream when
one exists (the cpal error is discarded). -/
def AudioEngine.resume (e : AudioEngine) : AudioEngine :=
  match e.output with
  | none => e
  | some o => { e with output := some o.play }

/-- Method `AudioEngine::set_volume`: clamp to [0, 1]; store into the
output stream when one exists, otherwise nothing is retained. -/
def AudioEngine.set_volume (e : AudioEngine) (v : ℚ) : AudioEngine :=
  match e.output with
  | none => e
  | some o => { e with output := some (o.set_volume v) }

/-- Method `AudioEngine::play_file`, step by step: stop the previous
session; reopen the source path as the retained file (fallible);
allocate a fresh ring buffer of `sample_rate * channels * 2` samples;
reset the position tracker to 0; spawn the decoder through
`Decoder::spawn` (no start position, no position tracker); build the
output stream (fallible) and start it (fallible), storing it only when
both succeed. Every early return leaves the state exactly as the code
does. -/
def AudioEngine.play_file (e : AudioEngine) (env : Env) (src : FileSource) :
    AudioEngine × Except AudioError Unit :=
  let e1 := e.stop
  match env.openResult with
  | .error err => (e1, .error err)
  | .ok _ =>
    let e2 := { e1 with current_file := some ⟨src.path⟩ }
    let cap := e2.sample_rate * e2.channels * 2
    let e3 := { e2 with bufId := some e2.nextBufId, bufCap := some cap,
                        nextBufId := e2.nextBufId + 1,
                        position_tracker := 0,
                        decoder_handle := some ⟨none, false⟩ }
    match env.outputNewResult with
    | .error err => (e3, .error err)
    | .ok _ =>
      match env.playResult with
      | .error err => (e3, .error err)
      | .ok _ => ({ e3 with output := some OutputStream.new.play }, .ok ())

/-- Observable actions of `AudioEngine::seek_to`, in program order. -/
inductive Ev where
  | storePos (ms : Nat)
  | allocRing (cap : Nat)
  | spawnDecoder (start_ms : Nat) (hasTracker : Bool)
  | buildOutput
  | startOutput
deriving DecidableEq, Repr

/-- Method `AudioEngine::seek_to` with target `t` milliseconds
(`position.as_millis()`), step by step: fail with `DeviceNotAvailable`
when no file is retained; reopen the file (fallible, state untouched on
failure); remember whether an output stream exists (`is_playing`); drop
the output stream and decoder handle; store `t` into the position
tracker; allocate a fresh ring buffer; spawn the decoder through
`Decoder::spawn_at` with start position `t` and the shared tracker;
then, only when an output stream existed, build a new output stream
(fallible) and start it (fallible). The returned trace records the
actions in the order the code performs them. -/
def AudioEngine.seek_to (e : AudioEngine) (env : Env) (t : Nat) :
    AudioEngine × Except AudioError Unit × List Ev :=
  match e.current_file with
  | none => (e, .error .DeviceNotAvailable, [])
  | some _fs =>
    match env.openResult with
    | .error err => (e, .error err, [])
    | .ok _ =>
      let is_playing := e.output.isSome
      let cap := e.sample_rate * e.channels * 2
      let e1 := { e with output := none, decoder_handle := none,
                         position_tracker := t,
                         bufId := some e.nextBufId, bufCap := some cap,
                         nextBufId := e.nextBufId + 1 }
      let e2 := { e1 with decoder_handle := some ⟨some t, true⟩ }
      let tr := [Ev.storePos t, Ev.allocRing cap, Ev.spawnDecoder t true]
      if is_playing then
        match env.outputNewResult with
        | .error err => (e2, .error err, tr)
        | .ok _ =>
          match env.playResult with
          | .error err => (e2, .error err, tr ++ [Ev.buildOutput])
          | .ok _ =>
            ({ e2 with output := some OutputStream.new.play }, .ok (),
              tr ++ [Ev.buildOutput, Ev.startOutput])
      else
        (e2, .ok (), tr)

/-- The spec state machine view of the engine: no output stream is
Idle, a started output stream is Playing, a stopped one is Paused. -/
inductive EngineState where
  | Idle
  | Playing
  | Paused
deriving DecidableEq, Repr

/-- Map an engine state to the spec state machine. -/
def AudioEngine.engineState (e : AudioEngine) : EngineState :=
  match e.output with
  | none => .Idle
  | some o => if o.playing then .Playing else .Paused

/-- Idle session state: no output stream, no decoder handle, no
retained source. -/
def AudioEngine.isIdle (e : AudioEngine) : Prop :=
  e.output = none ∧ e.decoder_handle = none ∧ e.current_file = none

instance (e : AudioEngine) : Decidable e.isIdle := by
  unfold AudioEngine.isIdle
  infer_instance

/-- Ring-buffer bookkeeping invariant: the live session buffer id was
issued before the next fresh id. -/
def AudioEngine.bufWF (e : AudioEngine) : Prop :=
  ∀ i, e.bufId = some i → i < e.nextBufId

/-- Concrete engine fixture: a 44.1 kHz stereo device, no session. -/
def freshEngine : AudioEngine :=
  { sample_rate := 44100, channels := 2, output := none,
    decoder_handle := none, current_file := none, position_tracker := 0,
    bufId := none, bufCap := none, nextBufId := 0 }

/-- Environment in which every external call succeeds. -/
def okEnv : Env := ⟨.ok (), .ok (), .ok ()⟩

/-- Environment in which `OutputStream::new` fails (for example the
device reports a sample format other than f32, i16 or u16). -/
def badOutputEnv : Env := ⟨.ok (), .error .UnsupportedFormat, .ok ()⟩

/-- Concrete file source fixture. -/
def src0 : FileSource := ⟨"track.mp3"⟩

/-- Engine right after a successful `play_file` on the fixture. -/
def playingEngine : AudioEngine := (freshEngine.play_file okEnv src0).1

/-- Engine paused after a successful `play_file` on the fixture. -/
def pausedEngine : AudioEngine := playingEngine.pause

/-- Format fixture: one decodable packet of 1152 frames at 44.1 kHz
stereo, as one mp3 frame would decode. -/
def oneFormat : Format ℚ :=
  { default_track := some ⟨0, ⟨some 44100, some 2⟩⟩,
    seekOk := true,
    packets := [.ok 1152 (List.replicate 2304 0) true],
    packetsAfterSeek := [] }

/-- Format fixture: the probe identifies a container but it exposes no
default track. -/
def noTrackFormat : Format ℚ :=
  { default_track := none, seekOk := false, packets := [],
    packetsAfterSeek := [] }

/-- Format fixture: a 44.1 kHz stereo stream whose reader seek fails
(corrupt index); the natural-start stream holds one good packet. -/
def failSeekFormat : Format Nat :=
  { default_track := some ⟨0, ⟨some 44100, some 2⟩⟩,
    seekOk := false,
    packets := [.ok 10 [1, 2] true],
    packetsAfterSeek := [.err "unreachable"] }

/-- Trivial resampler stand-in used when instantiating decode loops
whose source rate equals the device rate (the branch is never taken). -/
def idResample : Unit → List ℚ → Unit × List ℚ × List ℚ :=
  fun u l => (u, [], l)

/-- Trivial resampler stand-in over Nat samples. -/
def idResampleNat : Unit → List Nat → Unit × List Nat × List Nat :=
  fun u l => (u, [], l)

/-- Codec constructor stand-in that always succeeds. -/
def mkOk : CodecParams → Except String Unit := fun _ => .ok ()

/-- Every sample accepted by an iteration of the push loop is appended
to the inflow accumulator: on termination the result extends the
accumulator by exactly the remaining samples, in order. -/
lemma push_samples_go_inflow {α : Type} :
    ∀ (fuel : Nat) (pops : List Nat) (rb : RB α) (rest inflow : List α)
      (rb2 : RB α) (res : List α),
      push_samples_go fuel pops rb rest inflow = some (rb2, res) →
      res = inflow ++ rest := by
  intro fuel
  induction fuel with
  | zero =>
    intro pops rb rest inflow rb2 res h
    simp [push_samples_go] at h
  | succ n ih =>
    intro pops rb rest inflow rb2 res h
    rw [push_samples_go.eq_def] at h
    by_cases he : rest.isEmpty
    · rw [List.isEmpty_iff] at he
      subst he
      simp at h
      simp [h.2]
    · simp only [he, if_false, Bool.false_eq_true] at h
      by_cases hz : (rb.push_slice rest).2 = 0
      · simp only [hz, if_true] at h
        cases pops with
        | nil => simp at h
        | cons p ps => exact ih ps ⟨rb.cap, rb.data.drop p⟩ rest inflow rb2 res h
      · simp only [hz, if_false] at h
        have := ih pops (rb.push_slice rest).1 (rest.drop (rb.push_slice rest).2)
          (inflow ++ rest.take (rb.push_slice rest).2) rb2 res h
        rw [this, List.append_assoc, List.take_append_drop]

/-- When the decode loop is run without a position tracker, it never
stores a position: the write list is left unchanged. -/
lemma decodeLoopGo_writes_no_tracker {α ρ : Type} (src_rate : Nat)
    (start_ms : Option Nat) (needResample : Bool)
    (procRes : ρ → List α → ρ × List α × List α) :
    ∀ (ps : List (PacketResult α)) (st : LoopState α ρ),
      (decodeLoopGo src_rate start_ms false needResample procRes ps st).2.writes
        = st.writes := by
  intro ps
  induction ps with
  | nil => intro st; rfl
  | cons p rest ih =>
    intro st
    cases p with
    | err m => rfl
    | ok frames samples dok =>
      cases dok with
      | false => simpa [decodeLoopGo] using ih st
      | true =>
        cases needResample with
        | false => simpa [decodeLoopGo] using ih _
        | true => simpa [decodeLoopGo] using ih _

/-- A packet stream without read errors drives the decode loop to a
successful end: the loop breaks on end of stream and returns Ok. -/
lemma decodeLoopGo_ok_of_no_err {α ρ : Type} (src_rate : Nat)
    (start_ms : Option Nat) (hasTracker needResample : Bool)
    (procRes : ρ → List α → ρ × List α × List α) :
    ∀ (ps : List (PacketResult α)) (st : LoopState α ρ),
      (∀ m, PacketResult.err m ∉ ps) →
      (decodeLoopGo src_rate start_ms hasTracker needResample procRes ps st).1
        = .ok () := by
  intro ps
  induction ps with
  | nil => intro st h; rfl
  | cons p rest ih =>
    intro st h
    have hrest : ∀ m, PacketResult.err m ∉ rest := by
      intro m hm
      exact h m (List.mem_cons_of_mem _ hm)
    cases p with
    | err m => exact absurd (List.mem_cons_self _ _) (h m)
    | ok frames samples dok =>
      cases dok with
      | false => simpa [decodeLoopGo] using ih st hrest
      | true =>
        cases needResample with
        | false => simpa [decodeLoopGo] using ih _ hrest
        | true => simpa [decodeLoopGo] using ih _ hrest

/-- C6: for every slice of decoded samples, `push_samples` returns only
after every sample of the slice entered the ring buffer, in order and
without modification; a full buffer only causes a sleep-and-retry (the
consumer schedule), never a dropped sample. Termination is the
hypothesis that the loop returned, which holds whenever the consumer
eventually frees space within the fuel bound. -/
theorem c6_push_samples_delivers_all_in_order {α : Type} (fuel : Nat)
    (pops : List Nat) (rb rb2 : RB α) (samples inflow : List α)
    (h : push_samples fuel pops rb samples = some (rb2, inflow)) :
    inflow = samples := by
  simpa using push_samples_go_inflow fuel pops rb samples [] rb2 inflow h

/-- Witness for C6: a capacity-2 buffer receiving three samples, with
the consumer freeing one slot at the single full-buffer retry. -/
theorem c6_witness : ([5, 6, 7] : List Nat) = [5, 6, 7] :=
  c6_push_samples_delivers_all_in_order 10 [1] ⟨2, []⟩ ⟨2, [6, 7]⟩
    [5, 6, 7] [5, 6, 7] (by decide)

/-- C7: for every device sample format (the conversion `conv` standing
for `T::from_sample` of f32, i16 or u16) and every callback invocation
on a buffer of `n` device samples, volume 0 writes the conversion of
the zero sample at every position, and volume 1 writes the unattenuated
conversion of each popped sample with the ring-buffer shortfall filled
with converted silence. -/
theorem c7_volume_endpoints {β : Type} (conv : ℚ → β) (rb : RB ℚ)
    (n : Nat) :
    (audio_callback conv 0 rb n).1 = List.replicate n (conv 0) ∧
    (audio_callback conv 1 rb n).1 =
      (rb.data.take n).map conv
        ++ List.replicate (n - (rb.data.take n).length) (conv 0) := by
  have hconv : (fun s : ℚ => conv (s * 0)) = fun _ => conv 0 := by
    funext s
    rw [mul_zero]
  constructor
  · simp only [audio_callback, RB.pop_slice, hconv, List.map_const']
    congr 1
    simp only [List.length_append, List.length_take, List.length_replicate]
    have := Nat.min_le_left n rb.data.length
    omega
  · simp [audio_callback, RB.pop_slice]

/-- C1 (code bug in play_file): the engine spawns the decoder for an
ordinary `play_file` session through `Decoder::spawn`, which passes no
start position and no position tracker to `decode_loop`, and a decode
loop run without a tracker performs no position writes at all: on the
one-packet fixture the write list is empty, while the claimed update
would store 0 + 1152 * 1000 / 44100 = 26 ms after the packet. The
tracker therefore stays at the reset value 0 for the whole session and
`current_position` does not reflect decode progress. -/
theorem c1_play_file_never_updates_position_tracker :
    (freshEngine.play_file okEnv src0).1.decoder_handle
      = some ⟨none, false⟩ ∧
    (decode_loop (.ok oneFormat) mkOk 44100 none false () idResample).2.1
      = [] ∧
    (decode_loop (.ok oneFormat) mkOk 44100 none false () idResample).2.1
      ≠ [0 + 1152 * 1000 / 44100] ∧
    (freshEngine.play_file okEnv src0).1.position_tracker = 0 := by
  have hw : (decode_loop (.ok oneFormat) mkOk 44100 none false ()
      idResample).2.1 = [] := by
    show (decodeLoopGo 44100 none false (44100 != 44100) idResample
      oneFormat.packets ⟨[], 0, [], [], ()⟩).2.writes = []
    rw [decodeLoopGo_writes_no_tracker]
  refine ⟨rfl, hw, ?_, rfl⟩
  rw [hw]
  decide

/-- C9: when the decoder is spawned with a positive start position and
the format reader seek fails, the decode loop does not abort: it runs
on the natural-start packet stream, exactly as it would had the seek
succeeded into that same stream, and an error-free stream still ends
with a successful thread result. -/
theorem c9_seek_failure_continues_from_natural_start {α ρ : Type}
    (format : Format α) (tr : Track)
    (mk : CodecParams → Except String Unit) (rate srcr ch p : Nat)
    (ht : Bool) (rs0 : ρ) (proc : ρ → List α → ρ × List α × List α)
    (htrack : format.default_track = some tr)
    (hmk : mk tr.codec_params = .ok ())
    (hsr : tr.codec_params.sample_rate = some srcr)
    (hch : tr.codec_params.channels = some ch)
    (hp : 0 < p) (hseek : format.seekOk = false) :
    decode_loop (.ok format) mk rate (some p) ht rs0 proc
      = decode_loop
          (.ok { format with seekOk := true,
                             packetsAfterSeek := format.packets })
          mk rate (some p) ht rs0 proc ∧
    ((∀ m, PacketResult.err m ∉ format.packets) →
      (decode_loop (.ok format) mk rate (some p) ht rs0 proc).1
        = .ok ()) := by
  constructor
  · simp [decode_loop, htrack, hmk, hsr, hch, hp, hseek]
  · intro hne
    simp only [decode_loop, htrack, hmk, hsr, hch, hp, hseek,
      if_true, if_false, Bool.false_eq_true]
    simpa using decodeLoopGo_ok_of_no_err srcr (some p) ht
      (srcr != rate) proc format.packets ⟨[], 0, [], [], rs0⟩ hne

/-- Witness for C9: the fixture whose reader seek fails decodes its
natural-start packet stream and terminates successfully. -/
theorem c9_witness :
    decode_loop (.ok failSeekFormat) mkOk 44100 (some 5000) true ()
        idResampleNat
      = decode_loop (.ok { failSeekFormat with seekOk := true, packetsAfterSeek := failSeekFormat.packets })
          mkOk 44100 (some 5000) true () idResampleNat ∧
    ((∀ m, PacketResult.err m ∉ failSeekFormat.packets) →
      (decode_loop (.ok failSeekFormat) mkOk 44100 (some 5000) true ()
        idResampleNat).1 = .ok ()) :=
  c9_seek_failure_continues_from_natural_start failSeekFormat
    ⟨0, ⟨some 44100, some 2⟩⟩ mkOk 44100 44100 2 5000 true ()
    idResampleNat rfl rfl rfl rfl (by decide) rfl

/-- C10 counterexample: a probe failure terminates the decode thread
with a Decode error carrying the probe message, not with the
UnsupportedFormat error the claim names. -/
theorem c10_probe_failure_gives_decode_error :
    (decode_loop (α := ℚ) (ρ := Unit) (.error "probe failed") mkOk 48000
        none false () idResample).1
      = .error (.Decode "probe failed") ∧
    AudioError.Decode "probe failed" ≠ .UnsupportedFormat :=
  ⟨rfl, by decide⟩

/-- C10 amended: a probe failure (no container format identified)
terminates the decode thread with a Decode error wrapping the probe
message, while a probed format without a default track terminates it
with UnsupportedFormat; in both cases no tracker writes and no samples
are produced. -/
theorem c10_probe_and_track_error_taxonomy {α ρ : Type} (m : String)
    (mk : CodecParams → Except String Unit) (rate : Nat)
    (start : Option Nat) (ht : Bool) (rs0 : ρ)
    (proc : ρ → List α → ρ × List α × List α) (format : Format α)
    (hnone : format.default_track = none) :
    decode_loop (.error m) mk rate start ht rs0 proc
      = (.error (.Decode m), [], []) ∧
    decode_loop (.ok format) mk rate start ht rs0 proc
      = (.error .UnsupportedFormat, [], []) :=
  ⟨rfl, by simp [decode_loop, hnone]⟩

/-- Witness for C10: the trackless fixture and a failed probe, at the
device rate 48 kHz. -/
theorem c10_witness :
    decode_loop (α := ℚ) (ρ := Unit) (.error "bad header") mkOk 48000
        none false () idResample
      = (.error (.Decode "bad header"), [], []) ∧
    decode_loop (.ok noTrackFormat) mkOk 48000 none false () idResample
      = (.error .UnsupportedFormat, [], []) :=
  c10_probe_and_track_error_taxonomy "bad header" mkOk 48000 none false
    () idResample noTrackFormat rfl

/-- C2 counterexample: seeking from the Paused state does not end in
Paused; the engine only tests whether an output stream exists
(`is_playing = self.output.is_some()`), which is true while paused, so
it rebuilds the output stream and starts it, ending in Playing. -/
theorem c2_seek_from_paused_resumes_playback :
    pausedEngine.engineState = .Paused ∧
    (pausedEngine.seek_to okEnv 2000).1.engineState = .Playing ∧
    (pausedEngine.seek_to okEnv 2000).1.engineState ≠ .Paused := by
  refine ⟨rfl, rfl, by decide⟩

/-- C2 amended: a seek issued while an output stream exists, whether it
is playing or paused, ends in the Playing state (the engine rebuilds
and starts the output stream whenever one existed); a seek issued while
no output stream exists leaves the engine without an output stream. -/
theorem c2_seek_with_output_ends_playing (e : AudioEngine) (env : Env)
    (t : Nat) (fs : FileSource)
    (hf : e.current_file = some fs) (ho : env.openResult = .ok ())
    (hn : env.outputNewResult = .ok ()) (hp : env.playResult = .ok ()) :
    (e.output.isSome → (e.seek_to env t).1.engineState = .Playing) ∧
    (e.output = none → (e.seek_to env t).1.output = none) := by
  constructor
  · intro hs
    simp [AudioEngine.seek_to, hf, ho, hn, hp, hs, AudioEngine.engineState,
      OutputStream.new, OutputStream.play]
  · intro hno
    simp [AudioEngine.seek_to, hf, ho, hn, hp, hno]

/-- Witness for C2: the paused fixture ends Playing after a seek. -/
theorem c2_witness :
    (pausedEngine.seek_to okEnv 7).1.engineState = .Playing :=
  (c2_seek_with_output_ends_playing pausedEngine okEnv 7 ⟨"track.mp3"⟩
    rfl rfl rfl rfl).1 rfl

/-- C3 counterexample: when the output-stream construction fails during
`play_file`, the error surfaces but the engine is not left Idle: the
freshly spawned decoder handle and the reopened source remain in the
session state. -/
theorem c3_output_failure_leaves_partial_session :
    (freshEngine.play_file badOutputEnv src0).2
      = .error .UnsupportedFormat ∧
    ¬ (freshEngine.play_file badOutputEnv src0).1.isIdle ∧
    (freshEngine.play_file badOutputEnv src0).1.decoder_handle
      = some ⟨none, false⟩ ∧
    (freshEngine.play_file badOutputEnv src0).1.current_file
      = some ⟨"track.mp3"⟩ := by
  refine ⟨rfl, by decide, rfl, rfl⟩

/-- C3 amended: a `play_file` failure while opening the source leaves
the engine Idle with the error surfaced; but a failure while building
or starting the output stream surfaces the error with the engine
retaining the just-spawned decoder handle and the reopened source (only
the output stream is absent). -/
theorem c3_play_file_failure_states (e : AudioEngine) (env : Env)
    (src : FileSource) (err : AudioError) :
    (env.openResult = .error err →
      (e.play_file env src).2 = .error err ∧
      (e.play_file env src).1.isIdle) ∧
    (env.openResult = .ok () → env.outputNewResult = .error err →
      (e.play_file env src).2 = .error err ∧
      (e.play_file env src).1.output = none ∧
      (e.play_file env src).1.decoder_handle = some ⟨none, false⟩ ∧
      (e.play_file env src).1.current_file = some ⟨src.path⟩) ∧
    (env.openResult = .ok () → env.outputNewResult = .ok () →
      env.playResult = .error err →
      (e.play_file env src).2 = .error err ∧
      (e.play_file env src).1.output = none ∧
      (e.play_file env src).1.decoder_handle = some ⟨none, false⟩ ∧
      (e.play_file env src).1.current_file = some ⟨src.path⟩) := by
  refine ⟨?_, ?_, ?_⟩
  · intro h1
    simp [AudioEngine.play_file, AudioEngine.stop, AudioEngine.isIdle, h1]
  · intro h1 h2
    simp [AudioEngine.play_file, AudioEngine.stop, h1, h2]
  · intro h1 h2 h3
    simp [AudioEngine.play_file, AudioEngine.stop, h1, h2, h3]

/-- Witness for C3: the open-failure branch at a concrete engine and
the output-failure branch at the fixture environment. -/
theorem c3_witness :
    ((freshEngine.play_file ⟨.error .DeviceNotAvailable, .ok (), .ok ()⟩
        src0).2 = .error .DeviceNotAvailable ∧
      (freshEngine.play_file ⟨.error .DeviceNotAvailable, .ok (), .ok ()⟩
        src0).1.isIdle) ∧
    ((freshEngine.play_file badOutputEnv src0).2
        = .error .UnsupportedFormat ∧
      (freshEngine.play_file badOutputEnv src0).1.output = none ∧
      (freshEngine.play_file badOutputEnv src0).1.decoder_handle
        = some ⟨none, false⟩ ∧
      (freshEngine.play_file badOutputEnv src0).1.current_file
        = some ⟨src0.path⟩) :=
  ⟨(c3_play_file_failure_states freshEngine
      ⟨.error .DeviceNotAvailable, .ok (), .ok ()⟩ src0
      .DeviceNotAvailable).1 rfl,
   (c3_play_file_failure_states freshEngine badOutputEnv src0
      .UnsupportedFormat).2.1 rfl rfl⟩

/-- C4: a newly constructed output stream carries volume 1, the engine
keeps no volume scalar of its own (`set_volume` with no active output
is a no-op on the whole engine state), and a seek performed while an
output stream exists replaces it by a brand-new one whose volume is 1,
discarding any previously set volume. -/
theorem c4_volume_resets_on_seek (e : AudioEngine) (env : Env) (t : Nat)
    (v : ℚ) (fs : FileSource) :
    OutputStream.new.volume = 1 ∧
    (e.output = none → e.set_volume v = e) ∧
    (e.current_file = some fs → env.openResult = .ok () →
      env.outputNewResult = .ok () → env.playResult = .ok () →
      e.output.isSome →
      (e.seek_to env t).1.output
        = some { volume := 1, playing := true }) := by
  refine ⟨rfl, ?_, ?_⟩
  · intro h
    simp [AudioEngine.set_volume, h]
  · intro hf ho hn hp hs
    simp [AudioEngine.seek_to, hf, ho, hn, hp, hs, OutputStream.new,
      OutputStream.play]

/-- Witness for C4: lowering the volume to one half while paused, then
seeking, leaves a fresh output stream at volume 1; and `set_volume` on
an idle engine changes nothing. -/
theorem c4_witness :
    (freshEngine.set_volume (1 / 2) = freshEngine) ∧
    ((pausedEngine.set_volume (1 / 2)).seek_to okEnv 3).1.output
      = some { volume := 1, playing := true } :=
  ⟨(c4_volume_resets_on_seek freshEngine okEnv 3 (1 / 2) src0).2.1 rfl,
   (c4_volume_resets_on_seek (pausedEngine.set_volume (1 / 2)) okEnv 3
      (1 / 2) ⟨"track.mp3"⟩).2.2 rfl rfl rfl rfl rfl⟩

/-- C5: a seek on a retained reopenable source stores the target into
the position tracker as its first observable action, before the new
decoder is spawned and before any output stream is rebuilt; the
position read after the seek returns is the target. -/
theorem c5_seek_stores_target_first (e : AudioEngine) (env : Env)
    (t : Nat) (fs : FileSource)
    (hf : e.current_file = some fs) (ho : env.openResult = .ok ()) :
    (e.seek_to env t).1.current_position = t ∧
    ∃ rest, (e.seek_to env t).2.2 = Ev.storePos t :: rest ∧
      Ev.spawnDecoder t true ∈ rest ∧
      (∀ s, Ev.storePos s ∉ rest) ∧
      (Ev.buildOutput ∈ (e.seek_to env t).2.2 → Ev.buildOutput ∈ rest) := by
  cases hout : e.output with
  | none =>
    refine ⟨?_, [Ev.allocRing (e.sample_rate * e.channels * 2),
      Ev.spawnDecoder t true], ?_, ?_, ?_, ?_⟩ <;>
      simp [AudioEngine.seek_to, hf, ho, hout,
        AudioEngine.current_position]
  | some o =>
    cases hn : env.outputNewResult with
    | error err =>
      refine ⟨?_, [Ev.allocRing (e.sample_rate * e.channels * 2),
        Ev.spawnDecoder t true], ?_, ?_, ?_, ?_⟩ <;>
        simp [AudioEngine.seek_to, hf, ho, hout, hn,
          AudioEngine.current_position]
    | ok u =>
      cases hp : env.playResult with
      | error err =>
        refine ⟨?_, [Ev.allocRing (e.sample_rate * e.channels * 2),
          Ev.spawnDecoder t true, Ev.buildOutput], ?_, ?_, ?_, ?_⟩ <;>
          simp [AudioEngine.seek_to, hf, ho, hout, hn, hp,
            AudioEngine.current_position]
      | ok u2 =>
        refine ⟨?_, [Ev.allocRing (e.sample_rate * e.channels * 2),
          Ev.spawnDecoder t true, Ev.buildOutput, Ev.startOutput],
          ?_, ?_, ?_, ?_⟩ <;>
          simp [AudioEngine.seek_to, hf, ho, hout, hn, hp,
            AudioEngine.current_position]

/-- Witness for C5: seeking the paused fixture to 2000 ms. -/
theorem c5_witness :
    (pausedEngine.seek_to okEnv 2000).1.current_position = 2000 ∧
    ∃ rest, (pausedEngine.seek_to okEnv 2000).2.2
        = Ev.storePos 2000 :: rest ∧
      Ev.spawnDecoder 2000 true ∈ rest ∧
      (∀ s, Ev.storePos s ∉ rest) ∧
      (Ev.buildOutput ∈ (pausedEngine.seek_to okEnv 2000).2.2 →
        Ev.buildOutput ∈ rest) :=
  c5_seek_stores_target_first pausedEngine okEnv 2000 ⟨"track.mp3"⟩
    rfl rfl

/-- Helper: once the source is opened, `play_file` installs the next
fresh buffer id, the configured capacity, and bumps the id counter, in
every later success or failure branch. -/
lemma play_file_buf_fields (e : AudioEngine) (env : Env)
    (src : FileSource) (ho : env.openResult = .ok ()) :
    (e.play_file env src).1.bufId = some e.nextBufId ∧
    (e.play_file env src).1.bufCap
      = some (e.sample_rate * e.channels * 2) ∧
    (e.play_file env src).1.nextBufId = e.nextBufId + 1 := by
  cases hn : env.outputNewResult with
  | error err =>
    refine ⟨?_, ?_, ?_⟩ <;>
      simp [AudioEngine.play_file, AudioEngine.stop, ho, hn]
  | ok u =>
    cases hp : env.playResult with
    | error err =>
      refine ⟨?_, ?_, ?_⟩ <;>
        simp [AudioEngine.play_file, AudioEngine.stop, ho, hn, hp]
    | ok u2 =>
      refine ⟨?_, ?_, ?_⟩ <;>
        simp [AudioEngine.play_file, AudioEngine.stop, ho, hn, hp]

/-- Helper: once the source is reopened, `seek_to` installs the next
fresh buffer id, the configured capacity, and bumps the id counter, in
every later branch. -/
lemma seek_buf_fields (e : AudioEngine) (env : Env) (t : Nat)
    (fs : FileSource) (hf : e.current_file = some fs)
    (ho : env.openResult = .ok ()) :
    (e.seek_to env t).1.bufId = some e.nextBufId ∧
    (e.seek_to env t).1.bufCap
      = some (e.sample_rate * e.channels * 2) ∧
    (e.seek_to env t).1.nextBufId = e.nextBufId + 1 := by
  cases hout : e.output with
  | none =>
    refine ⟨?_, ?_, ?_⟩ <;> simp [AudioEngine.seek_to, hf, ho, hout]
  | some o =>
    cases hn : env.outputNewResult with
    | error err =>
      refine ⟨?_, ?_, ?_⟩ <;>
        simp [AudioEngine.seek_to, hf, ho, hout, hn]
    | ok u =>
      cases hp : env.playResult with
      | error err =>
        refine ⟨?_, ?_, ?_⟩ <;>
          simp [AudioEngine.seek_to, hf, ho, hout, hn, hp]
      | ok u2 =>
        refine ⟨?_, ?_, ?_⟩ <;>
          simp [AudioEngine.seek_to, hf, ho, hout, hn, hp]

/-- C8: every session start allocates a ring buffer of capacity exactly
`sample_rate * channels * 2` samples with a fresh identity: both
`play_file` (once the source opened) and `seek_to` (once the source
reopened) install a buffer whose id was never used by any earlier
session, so no session reuses a previous buffer. -/
theorem c8_fresh_ring_buffer_per_session (e : AudioEngine) (env : Env)
    (src : FileSource) (t : Nat) (fs : FileSource) :
    (env.openResult = .ok () → e.bufWF →
      (e.play_file env src).1.bufCap
          = some (e.sample_rate * e.channels * 2) ∧
      (e.play_file env src).1.bufId = some e.nextBufId ∧
      (e.play_file env src).1.bufId ≠ e.bufId ∧
      (e.play_file env src).1.bufWF) ∧
    (e.current_file = some fs → env.openResult = .ok () → e.bufWF →
      (e.seek_to env t).1.bufCap
          = some (e.sample_rate * e.channels * 2) ∧
      (e.seek_to env t).1.bufId = some e.nextBufId ∧
      (e.seek_to env t).1.bufId ≠ e.bufId ∧
      (e.seek_to env t).1.bufWF) := by
  have hne : ∀ (i : Option Nat) (n : Nat),
      (∀ j, i = some j → j < n) → some n ≠ i := by
    intro i n h
    cases i with
    | none => simp
    | some j =>
      have := h j rfl
      simp only [ne_eq, Option.some.injEq]
      omega
  constructor
  · intro ho hwf
    obtain ⟨h1, h2, h3⟩ := play_file_buf_fields e env src ho
    refine ⟨h2, h1, ?_, ?_⟩
    · rw [h1]
      exact hne e.bufId e.nextBufId hwf
    · intro i hi
      rw [h1] at hi
      injection hi with h4
      rw [h3]
      omega
  · intro hf ho hwf
    obtain ⟨h1, h2, h3⟩ := seek_buf_fields e env t fs hf ho
    refine ⟨h2, h1, ?_, ?_⟩
    · rw [h1]
      exact hne e.bufId e.nextBufId hwf
    · intro i hi
      rw [h1] at hi
      injection hi with h4
      rw [h3]
      omega

/-- Witness for C8: seeking the playing fixture allocates buffer id 1
with the 44.1 kHz stereo capacity, distinct from the session buffer
id 0 installed by `play_file`. -/
theorem c8_witness :
    (playingEngine.seek_to okEnv 9).1.bufCap = some
      (playingEngine.sample_rate * playingEngine.channels * 2) ∧
    (playingEngine.seek_to okEnv 9).1.bufId
      = some playingEngine.nextBufId ∧
    (playingEngine.seek_to okEnv 9).1.bufId ≠ playingEngine.bufId ∧
    (playingEngine.seek_to okEnv 9).1.bufWF :=
  (c8_fresh_ring_buffer_per_session playingEngine okEnv src0 9
      ⟨"track.mp3"⟩).2 rfl rfl
    (by
      intro i hi
      have h0 : playingEngine.bufId = some 0 := rfl
      have h1 : playingEngine.nextBufId = 1 := rfl
      rw [h0] at hi
      rw [h1]
      cases hi
      omega)

end Ame
